import Mathlib

/-!
Shallow embedding of the Trading_Bots repository (src/trade.py, src/strategy.py)
and proofs about its trade-lifecycle and signal-generation logic.

Modelling conventions for `trade.py`:
* MetaTrader5 (the execution gateway) is modelled as an explicit `Gateway` state:
  the open-position list for the one traded symbol and a current `Tick`
  (bid/ask).  `mt5.positions_get` returning `None` and returning an empty tuple
  behave identically in the source, so both are modelled by the empty list.
* Order submission results are nondeterministic at the gateway; they are passed
  to the transition functions as parameters: `closeOk : Nat → Bool` tells
  whether a close order for a given ticket returns `TRADE_RETCODE_DONE`, and
  `openRes : Option Nat` is the opening order's result (`some t` = filled,
  position ticket `t`; `none` = rejected).  A successful fill creates the
  corresponding position at the gateway; a successful close removes it.
* `self.active_trades` (a Python dict keyed by ticket) is modelled as an
  association list `List (Nat × TradeInfo)`; membership test, lookup,
  deletion and insertion mirror the dict operations used by the source.
* Every submitted order is recorded in an event log so that "no close order is
  submitted for this position" is directly statable.
* Prices and times are rationals; `datetime` arithmetic becomes subtraction of
  second timestamps.

Modelling conventions for `strategy.py`:
* The pandas frame is reduced to its `close` column, a `List ℚ`; a missing
  column is `none`.  Rolling means are `Option ℚ` per index (`none` = NaN).
* pandas comparison semantics on NaN (`NaN > x` is `False`, `NaN < x` is
  `False`) are reproduced by the `Option` matches, and a zero long moving
  average (where pandas produces inf/NaN trend strength, which never tests
  `< min_trend_strength`) is mapped to `none` as well.
-/

namespace TradingBots

/-- Position direction; `mt5.ORDER_TYPE_BUY` / `mt5.ORDER_TYPE_SELL`. -/
inductive Dir
  | buy
  | sell
deriving DecidableEq, Repr

/-- The opposite order direction, used to offset a position. -/
def oppositeDir : Dir → Dir
  | .buy => .sell
  | .sell => .buy

/-- One value of the `active_trades` dict: `{'start_time': ..., 'entry_price': ...}`. -/
structure TradeInfo where
  start_time : ℚ
  entry_price : ℚ
deriving DecidableEq, Repr

/-- An open position as reported by `mt5.positions_get`. -/
structure Position where
  ticket : Nat
  type : Dir
  price_open : ℚ
  volume : ℚ
deriving DecidableEq, Repr

/-- Result of `mt5.symbol_info_tick(symbol)`. -/
structure Tick where
  bid : ℚ
  ask : ℚ
deriving DecidableEq, Repr

/-- The mutable fields of `TradeExecutor` (`__init__`). -/
structure ExecState where
  trade_amount : ℚ
  active_trades : List (Nat × TradeInfo)
  last_signal : Option Dir
deriving DecidableEq, Repr

/-- The gateway-side state for the one traded symbol. -/
structure Gateway where
  positions : List Position
  tick : Tick
deriving DecidableEq, Repr

/-- An order submitted to the gateway via `mt5.order_send`, with its outcome. -/
inductive Event
  | closeOrder (ticket : Nat) (ok : Bool)
  | openOrder (d : Dir) (ok : Bool)
deriving DecidableEq, Repr

/-- Result of one `TradeExecutor` method call: executor state, gateway state,
and the orders submitted during the call. -/
structure Outcome where
  s : ExecState
  gw : Gateway
  events : List Event
deriving DecidableEq, Repr

/-- Dict lookup `m[k]` (as an option), on the assoc-list model. -/
def lookupKey (k : Nat) : List (Nat × TradeInfo) → Option TradeInfo
  | [] => none
  | e :: rest => if e.1 = k then some e.2 else lookupKey k rest

/-- Dict deletion `del m[k]`. -/
def eraseKey (k : Nat) (m : List (Nat × TradeInfo)) : List (Nat × TradeInfo) :=
  m.filter (fun e => e.1 != k)

/-- Dict update `m[k] = v`. -/
def insertKey (k : Nat) (v : TradeInfo) (m : List (Nat × TradeInfo)) :
    List (Nat × TradeInfo) :=
  eraseKey k m ++ [(k, v)]

/-- Source `TradeExecutor.calculate_profit`: unrealized profit in dollars, with the
hard-coded 100000 contract multiplier. -/
def calculate_profit (position : Position) (current_price : ℚ) : ℚ :=
  match position.type with
  | .buy => (current_price - position.price_open) * position.volume * 100000
  | .sell => (position.price_open - current_price) * position.volume * 100000

/-- Source `TradeExecutor.get_position_type`: direction of the first open position for
the symbol, if any (`positions[0].type`). -/
def get_position_type (positions : List Position) : Option Dir :=
  match positions with
  | [] => none
  | p :: _ => some p.type

/-- The two skip-filters at the top of the `close_trade` loop: a position is
processed iff it matches the optional ticket filter and the optional type
filter. -/
def matchesClose (position_type : Option Dir) (position_ticket : Option Nat)
    (p : Position) : Bool :=
  (match position_ticket with
   | some t => p.ticket == t
   | none => true) &&
  (match position_type with
   | some d => p.type == d
   | none => true)

/-- One iteration of the `close_trade` loop body: if the position passes the
filters, submit an offsetting order; on `TRADE_RETCODE_DONE` the gateway drops
the position and the shadow entry for its ticket is deleted, otherwise state is
left intact. -/
def closeStep (position_type : Option Dir) (position_ticket : Option Nat)
    (closeOk : Nat → Bool) (acc : Outcome) (p : Position) : Outcome :=
  if matchesClose position_type position_ticket p then
    if closeOk p.ticket then
      ⟨{ acc.s with active_trades := eraseKey p.ticket acc.s.active_trades },
       { acc.gw with positions := acc.gw.positions.filter (fun q => q.ticket != p.ticket) },
       acc.events ++ [Event.closeOrder p.ticket true]⟩
    else
      ⟨acc.s, acc.gw, acc.events ++ [Event.closeOrder p.ticket false]⟩
  else acc

/-- Source `TradeExecutor.close_trade`: early return when the gateway reports no open
positions, otherwise iterate the snapshot of the position list. -/
def close_trade (s : ExecState) (gw : Gateway) (position_type : Option Dir)
    (position_ticket : Option Nat) (closeOk : Nat → Bool) : Outcome :=
  if gw.positions.isEmpty then ⟨s, gw, []⟩
  else gw.positions.foldl (closeStep position_type position_ticket closeOk) ⟨s, gw, []⟩

/-- Which branch of `manage_trades` fires for a managed position. -/
inductive CloseReason
  | profitable
  | stopLoss
  | target
deriving DecidableEq, Repr

/-- The branch structure of `manage_trades` on one position: the exit rules are
evaluated only once `time_open >= 60`; inside, `profit > 0` closes immediately,
otherwise the `profit <= -5` stop loss and then the `profit >= 2` target are
tested. -/
def manage_decision (time_open profit : ℚ) : Option CloseReason :=
  if 60 ≤ time_open then
    if 0 < profit then some .profitable
    else if profit ≤ -5 then some .stopLoss
    else if 2 ≤ profit then some .target
    else none
  else none

/-- Source line `current_price = current_tick.bid if position.type == BUY else current_tick.ask`. -/
def exitPrice (tick : Tick) (p : Position) : ℚ :=
  match p.type with
  | .buy => tick.bid
  | .sell => tick.ask

/-- One iteration of the `manage_trades` loop body: skip positions without a
shadow entry; otherwise compute elapsed time and profit from the tick fetched
at the start of the call, and close when the decision says so. -/
def manageStep (now : ℚ) (tick : Tick) (closeOk : Nat → Bool)
    (acc : Outcome) (p : Position) : Outcome :=
  match lookupKey p.ticket acc.s.active_trades with
  | none => acc
  | some info =>
      match manage_decision (now - info.start_time)
          (calculate_profit p (exitPrice tick p)) with
      | some _ =>
          ⟨(close_trade acc.s acc.gw none (some p.ticket) closeOk).s,
           (close_trade acc.s acc.gw none (some p.ticket) closeOk).gw,
           acc.events ++ (close_trade acc.s acc.gw none (some p.ticket) closeOk).events⟩
      | none => acc

/-- Source `TradeExecutor.manage_trades`: early return when the gateway reports no
open positions, otherwise iterate the snapshot of the position list. -/
def manage_trades (s : ExecState) (gw : Gateway) (now : ℚ)
    (closeOk : Nat → Bool) : Outcome :=
  if gw.positions.isEmpty then ⟨s, gw, []⟩
  else gw.positions.foldl (manageStep now gw.tick closeOk) ⟨s, gw, []⟩

/-- Outcome of the checks at the top of `execute_trade` (lines 123–137):
the `signal == self.last_signal` duplicate check runs first and does not
consult the gateway; then the direction of the first open position decides
between the same-direction no-op and proceeding to close-and-open. -/
inductive ExecDecision
  | dupNoop
  | samePosNoop
  | proceed
deriving DecidableEq, Repr

/-- The decision logic at the top of `execute_trade`, factored out verbatim. -/
def execute_decision (last_signal : Option Dir) (positions : List Position)
    (signal : Dir) : ExecDecision :=
  if last_signal = some signal then .dupNoop
  else
    match get_position_type positions with
    | some d => if signal = d then .samePosNoop else .proceed
    | none => .proceed

/-- Order price: `mt5.symbol_info_tick(symbol).ask` for a buy order, `.bid` for a sell. -/
def entryPrice (tick : Tick) (signal : Dir) : ℚ :=
  match signal with
  | .buy => tick.ask
  | .sell => tick.bid

/-- Source `TradeExecutor.execute_trade` for `signal ∈ {"buy","sell"}` (the only
values the control loop passes): duplicate-signal and same-position checks,
close of opposite-direction positions, then the opening order.  On a fill the
shadow entry `{start_time: now, entry_price: request price}` is stored under
`result.order` and `last_signal` is updated; on rejection nothing further is
mutated. -/
def execute_trade (s : ExecState) (gw : Gateway) (signal : Dir) (now : ℚ)
    (closeOk : Nat → Bool) (openRes : Option Nat) : Outcome :=
  match execute_decision s.last_signal gw.positions signal with
  | .dupNoop => ⟨s, gw, []⟩
  | .samePosNoop => ⟨s, gw, []⟩
  | .proceed =>
      match openRes with
      | some t =>
          ⟨{ (close_trade s gw (some (oppositeDir signal)) none closeOk).s with
              active_trades := insertKey t
                ⟨now, entryPrice (close_trade s gw (some (oppositeDir signal)) none closeOk).gw.tick signal⟩
                (close_trade s gw (some (oppositeDir signal)) none closeOk).s.active_trades,
              last_signal := some signal },
           { (close_trade s gw (some (oppositeDir signal)) none closeOk).gw with
              positions := (close_trade s gw (some (oppositeDir signal)) none closeOk).gw.positions ++
                [⟨t, signal,
                  entryPrice (close_trade s gw (some (oppositeDir signal)) none closeOk).gw.tick signal,
                  s.trade_amount⟩] },
           (close_trade s gw (some (oppositeDir signal)) none closeOk).events ++
             [Event.openOrder signal true]⟩
      | none =>
          ⟨(close_trade s gw (some (oppositeDir signal)) none closeOk).s,
           (close_trade s gw (some (oppositeDir signal)) none closeOk).gw,
           (close_trade s gw (some (oppositeDir signal)) none closeOk).events ++
             [Event.openOrder signal false]⟩

/-- One manager-driven transition of the combined (executor, gateway) state:
an `execute_trade`, `manage_trades` or `close_trade` call with arbitrary
arguments and arbitrary gateway order outcomes, or a market tick move between
calls. -/
inductive Step : ExecState × Gateway → ExecState × Gateway → Prop
  | exec (s : ExecState) (gw : Gateway) (signal : Dir) (now : ℚ)
      (closeOk : Nat → Bool) (openRes : Option Nat) :
      Step (s, gw) ((execute_trade s gw signal now closeOk openRes).s,
                    (execute_trade s gw signal now closeOk openRes).gw)
  | manage (s : ExecState) (gw : Gateway) (now : ℚ) (closeOk : Nat → Bool) :
      Step (s, gw) ((manage_trades s gw now closeOk).s,
                    (manage_trades s gw now closeOk).gw)
  | close (s : ExecState) (gw : Gateway) (position_type : Option Dir)
      (position_ticket : Option Nat) (closeOk : Nat → Bool) :
      Step (s, gw) ((close_trade s gw position_type position_ticket closeOk).s,
                    (close_trade s gw position_type position_ticket closeOk).gw)
  | tickMove (s : ExecState) (gw : Gateway) (tick : Tick) :
      Step (s, gw) (s, { gw with tick := tick })

/-- States reachable from `init` by manager calls and tick moves. -/
def Reachable (init st : ExecState × Gateway) : Prop :=
  Relation.ReflTransGen Step init st

/-- The shadow-cache property: every `active_trades` key is the ticket of a
position the gateway currently reports. -/
def ShadowSubset (s : ExecState) (gw : Gateway) : Prop :=
  ∀ e ∈ s.active_trades, e.1 ∈ gw.positions.map Position.ticket

instance (s : ExecState) (gw : Gateway) : Decidable (ShadowSubset s gw) := by
  unfold ShadowSubset
  infer_instance

/-! ### strategy.py -/

/-- Source line `data['close'].rolling(window=w).mean()` at row `i`: defined (non-NaN) iff
the window fits, i.e. `i + 1 ≥ w` and `i` is a valid row. -/
def smaAt (w : Nat) (closes : List ℚ) (i : Nat) : Option ℚ :=
  if w ≤ i + 1 ∧ i < closes.length then
    some ((((List.range w).map (fun j => closes.getD (i - j) 0)).sum) / w)
  else none

/-- Source line `data['crossover'] = (data['SMA_Short'] > data['SMA_Long']).astype(int)`:
pandas comparisons involving NaN are `False`, hence 0. -/
def crossoverAt (closes : List ℚ) (i : Nat) : ℤ :=
  match smaAt 3 closes i, smaAt 7 closes i with
  | some a, some b => if b < a then 1 else 0
  | _, _ => 0

/-- Source line `data['crossover_change'] = data['crossover'].diff()`: NaN (`none`) at the
first row, else the difference with the previous row. -/
def crossoverChangeAt (closes : List ℚ) (i : Nat) : Option ℤ :=
  if i = 0 then none
  else some (crossoverAt closes i - crossoverAt closes (i - 1))

/-- Source line `data['trend_strength'] = abs(SMA_Short - SMA_Long) / SMA_Long * 100`:
NaN (`none`) when either average is NaN; a zero long average makes the pandas
value inf or NaN, neither of which ever tests `< min_trend_strength`, so it is
also mapped to `none`. -/
def trendStrengthAt (closes : List ℚ) (i : Nat) : Option ℚ :=
  match smaAt 3 closes i, smaAt 7 closes i with
  | some a, some b => if b = 0 then none else some (|a - b| / b * 100)
  | _, _ => none

/-- The two `data.loc[data['crossover_change'] == ±1, 'signal']` assignments:
`buy` where the crossover indicator changed 0→1, `sell` where it changed 1→0. -/
def rawSignalAt (closes : List ℚ) (i : Nat) : Option Dir :=
  if crossoverChangeAt closes i = some 1 then some .buy
  else if crossoverChangeAt closes i = some (-1) then some .sell
  else none

/-- The signal column after the
`data.loc[data['trend_strength'] < min_trend_strength, 'signal'] = None`
suppression with `min_trend_strength = 0.001`. -/
def signalAt (closes : List ℚ) (i : Nat) : Option Dir :=
  match rawSignalAt closes i with
  | none => none
  | some d =>
      match trendStrengthAt closes i with
      | some ts => if ts < 1 / 1000 then none else some d
      | none => some d

/-- The whole signal column of `apply_strategy`, one value per bar. -/
def signals (closes : List ℚ) : List (Option Dir) :=
  (List.range closes.length).map (signalAt closes)

/-- The input frame of `apply_strategy`, reduced to what the function reads:
the `close` column (`none` models a frame with the column missing) plus the
remaining columns, carried opaquely. -/
structure Frame where
  close : Option (List ℚ)
  extra : List (String × List ℚ)
deriving DecidableEq

/-- The frame returned by `apply_strategy`: the input columns plus, on the
success path, the added `SMA_Short`, `SMA_Long` and `signal` columns (the
intermediate `crossover`, `crossover_change` and `trend_strength` columns are
dropped before returning). -/
structure StratOutput where
  close : Option (List ℚ)
  extra : List (String × List ℚ)
  sma_short : Option (List (Option ℚ))
  sma_long : Option (List (Option ℚ))
  signal : Option (List (Option Dir))
deriving DecidableEq

/-- The input frame returned as-is: same columns, nothing added. -/
def unchangedOutput (f : Frame) : StratOutput :=
  ⟨f.close, f.extra, none, none, none⟩

/-- Source `apply_strategy`.  The failure mode the source's `except` branch handles is
an exception from the computation — e.g. a missing `close` column, which raises
`KeyError` at the very first statement `data['close'].rolling(...)`, before any
column has been written; the handler then returns the input frame.  That error
path is the one modelled: `close = none` yields the input unchanged. -/
def apply_strategy (f : Frame) : StratOutput :=
  match f.close with
  | none => unchangedOutput f
  | some closes =>
      ⟨some closes, f.extra,
       some ((List.range closes.length).map (smaAt 3 closes)),
       some ((List.range closes.length).map (smaAt 7 closes)),
       some (signals closes)⟩

/-! ### Helper lemmas: the assoc-list dict model -/

lemma lookupKey_eraseKey_ne {k t : Nat} (m : List (Nat × TradeInfo)) (h : k ≠ t) :
    lookupKey k (eraseKey t m) = lookupKey k m := by
  induction m with
  | nil => rfl
  | cons e rest ih =>
      rw [eraseKey, List.filter_cons]
      by_cases he : e.1 = t
      · have : (e.1 != t) = false := by simp [he]
        rw [this, if_neg (by simp)]
        rw [lookupKey, if_neg (by rw [he]; exact fun hh => h hh.symm)]
        exact ih
      · have : (e.1 != t) = true := by simp [he]
        rw [this, if_pos rfl, lookupKey, lookupKey]
        by_cases hk : e.1 = k
        · rw [if_pos hk, if_pos hk]
        · rw [if_neg hk, if_neg hk]
          exact ih

lemma lookupKey_eraseKey_self (k : Nat) (m : List (Nat × TradeInfo)) :
    lookupKey k (eraseKey k m) = none := by
  induction m with
  | nil => rfl
  | cons e rest ih =>
      rw [eraseKey, List.filter_cons]
      by_cases he : e.1 = k
      · have : (e.1 != k) = false := by simp [he]
        rw [this, if_neg (by simp)]
        exact ih
      · have : (e.1 != k) = true := by simp [he]
        rw [this, if_pos rfl, lookupKey, if_neg he]
        exact ih

lemma lookupKey_eraseKey_sub {k t : Nat} (m : List (Nat × TradeInfo)) {v : TradeInfo}
    (h : lookupKey k (eraseKey t m) = some v) : lookupKey k m = some v := by
  by_cases hk : k = t
  · subst hk
    rw [lookupKey_eraseKey_self] at h
    exact absurd h (by simp)
  · rw [lookupKey_eraseKey_ne m hk] at h
    exact h

lemma mem_of_mem_eraseKey {e : Nat × TradeInfo} {t : Nat} {m : List (Nat × TradeInfo)}
    (h : e ∈ eraseKey t m) : e ∈ m :=
  (List.mem_filter.mp h).1

/-- Preservation of a predicate along a `List.foldl` over `Outcome`. -/
lemma foldl_outcome_preserve {β : Type} (P : Outcome → Prop) (f : Outcome → β → Outcome)
    (hf : ∀ acc b, P acc → P (f acc b)) :
    ∀ (l : List β) (acc : Outcome), P acc → P (l.foldl f acc) := by
  intro l
  induction l with
  | nil => intro acc h; exact h
  | cons b rest ih =>
      intro acc h
      rw [List.foldl_cons]
      exact ih (f acc b) (hf acc b h)

/-! ### Helper lemmas: `close_trade` -/

lemma closeStep_last_signal (pt : Option Dir) (pk : Option Nat) (ok : Nat → Bool)
    (acc : Outcome) (p : Position) :
    (closeStep pt pk ok acc p).s.last_signal = acc.s.last_signal := by
  unfold closeStep
  split
  · split <;> rfl
  · rfl

lemma close_trade_last_signal (s : ExecState) (gw : Gateway) (pt : Option Dir)
    (pk : Option Nat) (ok : Nat → Bool) :
    (close_trade s gw pt pk ok).s.last_signal = s.last_signal := by
  unfold close_trade
  split
  · rfl
  · have := foldl_outcome_preserve (fun o => o.s.last_signal = s.last_signal)
      (closeStep pt pk ok)
      (fun acc b h => (closeStep_last_signal pt pk ok acc b).trans h)
      gw.positions ⟨s, gw, []⟩ rfl
    exact this

lemma closeStep_lookup_sub (pt : Option Dir) (pk : Option Nat) (ok : Nat → Bool)
    (acc : Outcome) (p : Position) {k : Nat} {v : TradeInfo}
    (h : lookupKey k (closeStep pt pk ok acc p).s.active_trades = some v) :
    lookupKey k acc.s.active_trades = some v := by
  unfold closeStep at h
  split at h
  · split at h
    · exact lookupKey_eraseKey_sub _ h
    · exact h
  · exact h

lemma close_trade_lookup_sub (s : ExecState) (gw : Gateway) (pt : Option Dir)
    (pk : Option Nat) (ok : Nat → Bool) {k : Nat} {v : TradeInfo}
    (h : lookupKey k (close_trade s gw pt pk ok).s.active_trades = some v) :
    lookupKey k s.active_trades = some v := by
  unfold close_trade at h
  split at h
  · exact h
  · have := foldl_outcome_preserve
      (fun o => lookupKey k o.s.active_trades = some v →
        lookupKey k s.active_trades = some v)
      (closeStep pt pk ok)
      (fun acc b ih hb => ih (closeStep_lookup_sub pt pk ok acc b hb))
      gw.positions ⟨s, gw, []⟩ (fun hh => hh)
    exact this h

lemma matchesClose_ticket {pt : Option Dir} {t : Nat} {p : Position}
    (h : matchesClose pt (some t) p = true) : p.ticket = t := by
  unfold matchesClose at h
  have h1 : (p.ticket == t) = true := (Bool.and_eq_true _ _).mp h |>.1
  simpa using h1

lemma closeStep_some_lookup_ne (pt : Option Dir) (t : Nat) (ok : Nat → Bool)
    (acc : Outcome) (p : Position) {k : Nat} (hk : k ≠ t) :
    lookupKey k (closeStep pt (some t) ok acc p).s.active_trades =
      lookupKey k acc.s.active_trades := by
  unfold closeStep
  split
  · rename_i hm
    split
    · show lookupKey k (eraseKey p.ticket acc.s.active_trades) = _
      rw [matchesClose_ticket hm]
      exact lookupKey_eraseKey_ne _ hk
    · rfl
  · rfl

lemma close_trade_some_lookup_ne (s : ExecState) (gw : Gateway) (pt : Option Dir)
    (t : Nat) (ok : Nat → Bool) {k : Nat} (hk : k ≠ t) :
    lookupKey k (close_trade s gw pt (some t) ok).s.active_trades =
      lookupKey k s.active_trades := by
  unfold close_trade
  split
  · rfl
  · exact foldl_outcome_preserve
      (fun o => lookupKey k o.s.active_trades = lookupKey k s.active_trades)
      (closeStep pt (some t) ok)
      (fun acc b h => (closeStep_some_lookup_ne pt t ok acc b hk).trans h)
      gw.positions ⟨s, gw, []⟩ rfl

lemma closeStep_some_events (pt : Option Dir) (t : Nat) (ok : Nat → Bool)
    (acc : Outcome) (p : Position)
    (h : ∀ ev ∈ acc.events, ∃ b, ev = Event.closeOrder t b) :
    ∀ ev ∈ (closeStep pt (some t) ok acc p).events, ∃ b, ev = Event.closeOrder t b := by
  unfold closeStep
  split
  · rename_i hm
    split
    · intro ev hev
      rcases List.mem_append.mp hev with hev | hev
      · exact h ev hev
      · rcases List.mem_singleton.mp hev with rfl
        exact ⟨true, by rw [matchesClose_ticket hm]⟩
    · intro ev hev
      rcases List.mem_append.mp hev with hev | hev
      · exact h ev hev
      · rcases List.mem_singleton.mp hev with rfl
        exact ⟨false, by rw [matchesClose_ticket hm]⟩
  · exact h

lemma close_trade_some_events (s : ExecState) (gw : Gateway) (pt : Option Dir)
    (t : Nat) (ok : Nat → Bool) :
    ∀ ev ∈ (close_trade s gw pt (some t) ok).events, ∃ b, ev = Event.closeOrder t b := by
  unfold close_trade
  split
  · intro ev hev
    exact absurd hev (by simp)
  · exact foldl_outcome_preserve
      (fun o => ∀ ev ∈ o.events, ∃ b, ev = Event.closeOrder t b)
      (closeStep pt (some t) ok)
      (fun acc b h => closeStep_some_events pt t ok acc b h)
      gw.positions ⟨s, gw, []⟩ (fun ev hev => absurd hev (by simp))

/-! ### Shadow-cache preservation -/

lemma closeStep_shadow (pt : Option Dir) (pk : Option Nat) (ok : Nat → Bool)
    (acc : Outcome) (p : Position) (h : ShadowSubset acc.s acc.gw) :
    ShadowSubset (closeStep pt pk ok acc p).s (closeStep pt pk ok acc p).gw := by
  unfold closeStep
  split
  · split
    · intro e he
      have he1 : e ∈ acc.s.active_trades := mem_of_mem_eraseKey he
      have he2 : (e.1 != p.ticket) = true := (List.mem_filter.mp he).2
      have hne : e.1 ≠ p.ticket := by simpa using he2
      have := h e he1
      rcases List.mem_map.mp this with ⟨q, hq, hqe⟩
      refine List.mem_map.mpr ⟨q, List.mem_filter.mpr ⟨hq, ?_⟩, hqe⟩
      simp only [bne_iff_ne, ne_eq]
      rw [hqe]
      exact hne
    · exact h
  · exact h

lemma close_trade_shadow (s : ExecState) (gw : Gateway) (pt : Option Dir)
    (pk : Option Nat) (ok : Nat → Bool) (h : ShadowSubset s gw) :
    ShadowSubset (close_trade s gw pt pk ok).s (close_trade s gw pt pk ok).gw := by
  unfold close_trade
  split
  · exact h
  · exact foldl_outcome_preserve (fun o => ShadowSubset o.s o.gw)
      (closeStep pt pk ok) (closeStep_shadow pt pk ok)
      gw.positions ⟨s, gw, []⟩ h

lemma manageStep_shadow (now : ℚ) (tick : Tick) (ok : Nat → Bool)
    (acc : Outcome) (p : Position) (h : ShadowSubset acc.s acc.gw) :
    ShadowSubset (manageStep now tick ok acc p).s (manageStep now tick ok acc p).gw := by
  unfold manageStep
  split
  · exact h
  · split
    · exact close_trade_shadow acc.s acc.gw none (some p.ticket) ok h
    · exact h

lemma manage_trades_shadow (s : ExecState) (gw : Gateway) (now : ℚ)
    (ok : Nat → Bool) (h : ShadowSubset s gw) :
    ShadowSubset (manage_trades s gw now ok).s (manage_trades s gw now ok).gw := by
  unfold manage_trades
  split
  · exact h
  · exact foldl_outcome_preserve (fun o => ShadowSubset o.s o.gw)
      (manageStep now gw.tick ok) (manageStep_shadow now gw.tick ok)
      gw.positions ⟨s, gw, []⟩ h

lemma execute_trade_shadow (s : ExecState) (gw : Gateway) (signal : Dir) (now : ℚ)
    (ok : Nat → Bool) (openRes : Option Nat) (h : ShadowSubset s gw) :
    ShadowSubset (execute_trade s gw signal now ok openRes).s
      (execute_trade s gw signal now ok openRes).gw := by
  unfold execute_trade
  split
  · exact h
  · exact h
  · have hr : ShadowSubset (close_trade s gw (some (oppositeDir signal)) none ok).s
        (close_trade s gw (some (oppositeDir signal)) none ok).gw :=
      close_trade_shadow s gw (some (oppositeDir signal)) none ok h
    cases openRes with
    | some t =>
        intro e he
        simp only [insertKey] at he
        rcases List.mem_append.mp he with he | he
        · have := hr e (mem_of_mem_eraseKey he)
          rcases List.mem_map.mp this with ⟨q, hq, hqe⟩
          exact List.mem_map.mpr ⟨q, List.mem_append.mpr (Or.inl hq), hqe⟩
        · rcases List.mem_singleton.mp he with rfl
          refine List.mem_map.mpr ⟨_, List.mem_append.mpr (Or.inr (List.mem_singleton.mpr rfl)), rfl⟩
    | none => exact hr

/-! ### Helper lemmas: `manage_trades` -/

/-- Preservation along a `List.foldl` when the step property is only available
for elements of the folded list. -/
lemma foldl_outcome_preserve_mem {β : Type} (P : Outcome → Prop) (f : Outcome → β → Outcome)
    (l0 : List β) (hf : ∀ acc b, b ∈ l0 → P acc → P (f acc b)) :
    ∀ (l : List β), (∀ b ∈ l, b ∈ l0) → ∀ acc : Outcome, P acc → P (l.foldl f acc) := by
  intro l
  induction l with
  | nil => intro _ acc h; exact h
  | cons b rest ih =>
      intro hsub acc h
      rw [List.foldl_cons]
      exact ih (fun q hq => hsub q (List.mem_cons_of_mem b hq)) (f acc b)
        (hf acc b (hsub b (List.mem_cons_self b rest)) h)

lemma manage_decision_none_of_lt (time_open profit : ℚ) (h : time_open < 60) :
    manage_decision time_open profit = none := by
  unfold manage_decision
  rw [if_neg (not_le.mpr h)]

/-- Every order `manage_trades` submits is a close order for a ticket the
gateway reported in the position list fetched at the start of the call. -/
lemma manage_trades_events (s : ExecState) (gw : Gateway) (now : ℚ) (closeOk : Nat → Bool) :
    ∀ ev ∈ (manage_trades s gw now closeOk).events,
      ∃ t b, ev = Event.closeOrder t b ∧ t ∈ gw.positions.map Position.ticket := by
  unfold manage_trades
  split
  · intro ev hev
    exact absurd hev (by simp)
  · refine foldl_outcome_preserve_mem
      (fun o => ∀ ev ∈ o.events,
        ∃ t b, ev = Event.closeOrder t b ∧ t ∈ gw.positions.map Position.ticket)
      (manageStep now gw.tick closeOk) gw.positions ?_ gw.positions
      (fun b hb => hb) ⟨s, gw, []⟩ (fun ev hev => absurd hev (by simp))
    intro acc p hp hacc
    unfold manageStep
    split
    · exact hacc
    · split
      · intro ev hev
        rcases List.mem_append.mp hev with hev | hev
        · exact hacc ev hev
        · rcases close_trade_some_events acc.s acc.gw none p.ticket closeOk ev hev with ⟨b, rfl⟩
          exact ⟨p.ticket, b, rfl, List.mem_map.mpr ⟨p, hp, rfl⟩⟩
      · exact hacc

/-! ### Claim C1 -/

/-- C1 (shadow-cache invariant): from the initial `TradeExecutor` state (empty
shadow map, no last signal), after any sequence of `execute_trade`,
`manage_trades` and `close_trade` calls (with arbitrary gateway order
outcomes, and arbitrary tick moves between calls), every ticket in the shadow
map `active_trades` is the ticket of a position the gateway currently reports
— no shadow entry persists for a ticket absent from the gateway's position
list.  Moreover the manager acts only after reconfirming against the gateway:
every close order `manage_trades` submits from such a state targets a ticket
in the gateway's freshly fetched position list. -/
theorem shadow_cache_invariant (amt : ℚ) (gw0 : Gateway) (st : ExecState × Gateway)
    (h : Reachable (⟨amt, [], none⟩, gw0) st) :
    ShadowSubset st.1 st.2 ∧
    ∀ now closeOk t b, Event.closeOrder t b ∈ (manage_trades st.1 st.2 now closeOk).events →
      t ∈ st.2.positions.map Position.ticket := by
  constructor
  · unfold Reachable at h
    induction h with
    | refl => intro e he; exact absurd he (List.not_mem_nil e)
    | tail _ hstep ih =>
        cases hstep with
        | exec s gw signal now closeOk openRes =>
            exact execute_trade_shadow s gw signal now closeOk openRes ih
        | manage s gw now closeOk => exact manage_trades_shadow s gw now closeOk ih
        | close s gw pt pk closeOk => exact close_trade_shadow s gw pt pk closeOk ih
        | tickMove s gw tick => exact ih
  · intro now closeOk t b hev
    rcases manage_trades_events st.1 st.2 now closeOk _ hev with ⟨t', b', heq, hmem⟩
    cases heq
    exact hmem

/-- Witness for C1: one concrete `execute_trade` step from the initial state
(a filled buy order, ticket 5) reaches a state satisfying the invariant. -/
theorem shadow_cache_invariant_witness :
    ShadowSubset
      (execute_trade ⟨1, [], none⟩ ⟨[], ⟨2, 3⟩⟩ Dir.buy 0 (fun _ => true) (some 5)).s
      (execute_trade ⟨1, [], none⟩ ⟨[], ⟨2, 3⟩⟩ Dir.buy 0 (fun _ => true) (some 5)).gw :=
  (shadow_cache_invariant 1 ⟨[], ⟨2, 3⟩⟩
    ((execute_trade ⟨1, [], none⟩ ⟨[], ⟨2, 3⟩⟩ Dir.buy 0 (fun _ => true) (some 5)).s,
     (execute_trade ⟨1, [], none⟩ ⟨[], ⟨2, 3⟩⟩ Dir.buy 0 (fun _ => true) (some 5)).gw)
    (Relation.ReflTransGen.single
      (Step.exec ⟨1, [], none⟩ ⟨[], ⟨2, 3⟩⟩ Dir.buy 0 (fun _ => true) (some 5)))).1

/-! ### Claim C3 -/

/-- C3 (minimum dwell time): for every open position with a shadow entry whose
elapsed holding time `now - start_time` is below the 60-second threshold,
`manage_trades` submits no close order for that position in the cycle,
whatever the profit works out to (the gateway position list is assumed to
carry distinct tickets, as `mt5` guarantees). -/
theorem manage_no_close_before_threshold (s : ExecState) (gw : Gateway) (now : ℚ)
    (closeOk : Nat → Bool) (p : Position) (info : TradeInfo)
    (hnd : (gw.positions.map Position.ticket).Nodup)
    (hp : p ∈ gw.positions)
    (hl : lookupKey p.ticket s.active_trades = some info)
    (ht : now - info.start_time < 60) (ok : Bool) :
    Event.closeOrder p.ticket ok ∉ (manage_trades s gw now closeOk).events := by
  unfold manage_trades
  split
  · simp
  · have hQ : (fun o : Outcome =>
        lookupKey p.ticket o.s.active_trades = some info ∧
          Event.closeOrder p.ticket ok ∉ o.events)
        (gw.positions.foldl (manageStep now gw.tick closeOk) ⟨s, gw, []⟩) := by
      refine foldl_outcome_preserve_mem
        (fun o : Outcome =>
          lookupKey p.ticket o.s.active_trades = some info ∧
            Event.closeOrder p.ticket ok ∉ o.events)
        (manageStep now gw.tick closeOk)
        gw.positions ?_ gw.positions (fun b hb => hb) ⟨s, gw, []⟩ ⟨hl, by simp⟩
      intro acc q hq hacc
      by_cases hticket : q.ticket = p.ticket
      · have hqp : q = p := List.inj_on_of_nodup_map hnd hq hp hticket
        subst hqp
        have hdec : ∀ profit, manage_decision (now - info.start_time) profit = none :=
          fun profit => manage_decision_none_of_lt _ profit ht
        unfold manageStep
        simp only [hacc.1, hdec]
        exact ⟨trivial, hacc.2⟩
      · unfold manageStep
        split
        · exact hacc
        · split
          · constructor
            · rw [close_trade_some_lookup_ne acc.s acc.gw none q.ticket closeOk
                (fun hh => hticket hh.symm)]
              exact hacc.1
            · intro hmem
              rcases List.mem_append.mp hmem with hmem | hmem
              · exact hacc.2 hmem
              · rcases close_trade_some_events acc.s acc.gw none q.ticket closeOk _ hmem
                  with ⟨b, hb⟩
                have : p.ticket = q.ticket := by
                  injection hb
                exact hticket this.symm
          · exact hacc
    exact hQ.2

/-- Witness for C3: a buy position opened at time 0, managed at time 30 with a
deep loss (profit −$500 at the 100000 multiplier), is not closed. -/
theorem manage_no_close_before_threshold_witness :
    Event.closeOrder 1 true ∉
      (manage_trades ⟨1, [(1, ⟨0, 10⟩)], some .buy⟩
        ⟨[⟨1, Dir.buy, 10, 1⟩], ⟨(9995 : ℚ)/1000, 10⟩⟩ 30 (fun _ => true)).events :=
  manage_no_close_before_threshold ⟨1, [(1, ⟨0, 10⟩)], some .buy⟩
    ⟨[⟨1, Dir.buy, 10, 1⟩], ⟨(9995 : ℚ)/1000, 10⟩⟩ 30 (fun _ => true)
    ⟨1, Dir.buy, 10, 1⟩ ⟨0, 10⟩ (by decide) (by decide) (by decide)
    (by with_unfolding_all decide) true

/-! ### Claim C9 -/

/-- C9 (profit-target branch unreachable): the `profit >= 2` check of
`manage_trades` sits in the `else` of `if profit > 0`, so it can never fire;
once the 60-second threshold has elapsed, a close is decided exactly when
`profit > 0` or `profit <= -5`. -/
theorem manage_target_branch_unreachable :
    (∀ time_open profit, manage_decision time_open profit ≠ some CloseReason.target) ∧
    (∀ time_open profit, 60 ≤ time_open →
      ((manage_decision time_open profit).isSome ↔ (0 < profit ∨ profit ≤ -5))) := by
  constructor
  · intro t profit
    unfold manage_decision
    split_ifs with h0 h1 h2 h3
    · simp
    · simp
    · exact absurd (le_trans h3 (not_lt.mp h1)) (by norm_num)
    · simp
    · simp
  · intro t profit ht
    unfold manage_decision
    rw [if_pos ht]
    split_ifs with h1 h2 h3
    · simpa using Or.inl h1
    · simpa using Or.inr h2
    · exact absurd (le_trans h3 (not_lt.mp h1)) (by norm_num)
    · simp only [Option.isSome_none, Bool.false_eq_true, false_iff]
      rintro (h | h)
      · exact h1 h
      · exact h2 h

/-- Witness for C9: at `time_open = 75`, `profit = 3`, the decision is not the
profit target, and a close is decided since the profit is positive. -/
theorem manage_target_branch_unreachable_witness :
    manage_decision 75 3 ≠ some CloseReason.target ∧
    ((manage_decision 75 3).isSome ↔ ((0 : ℚ) < 3 ∨ (3 : ℚ) ≤ -5)) :=
  ⟨manage_target_branch_unreachable.1 75 3,
   manage_target_branch_unreachable.2 75 3 (by decide)⟩

/-! ### Claim C2 -/

/-- C2 counterexample: with `last_signal = "buy"` but no position open at the
gateway, `execute_trade "buy"` submits no order at all and changes nothing —
the duplicate-signal check runs before the gateway is consulted, so the claim
that a fresh order is submitted when no matching position is open is false. -/
theorem execute_dedup_counterexample :
    (execute_trade ⟨1, [], some .buy⟩ ⟨[], ⟨1, 1⟩⟩ Dir.buy 0 (fun _ => true)
        (some 7)).events = [] ∧
    execute_trade ⟨1, [], some .buy⟩ ⟨[], ⟨1, 1⟩⟩ Dir.buy 0 (fun _ => true) (some 7) =
      ⟨⟨1, [], some .buy⟩, ⟨[], ⟨1, 1⟩⟩, []⟩ := by
  with_unfolding_all decide

/-- C2 amended: `execute_trade` suppresses a repeated identical signal
unconditionally — whenever `signal == last_signal` the call is a complete
no-op (no orders submitted, no state change), whether or not a matching
position is open at the gateway. -/
theorem execute_dedup_unconditional (s : ExecState) (gw : Gateway) (signal : Dir)
    (now : ℚ) (closeOk : Nat → Bool) (openRes : Option Nat)
    (h : s.last_signal = some signal) :
    execute_trade s gw signal now closeOk openRes = ⟨s, gw, []⟩ := by
  have hd : execute_decision s.last_signal gw.positions signal = .dupNoop := by
    unfold execute_decision
    rw [if_pos h]
  unfold execute_trade
  simp only [hd]

/-- Witness for C2's amended theorem at a concrete repeated sell signal. -/
theorem execute_dedup_unconditional_witness :
    execute_trade ⟨2, [], some .sell⟩ ⟨[], ⟨5, 6⟩⟩ Dir.sell 3 (fun _ => false) none =
      ⟨⟨2, [], some .sell⟩, ⟨[], ⟨5, 6⟩⟩, []⟩ :=
  execute_dedup_unconditional ⟨2, [], some .sell⟩ ⟨[], ⟨5, 6⟩⟩ Dir.sell 3
    (fun _ => false) none rfl

/-! ### Claim C4 -/

/-- C4 counterexample: an opposite-direction (sell) position with a shadow
entry is open; `execute_trade "buy"` first closes it successfully, then the
opening order is rejected (`openRes = none`).  The shadow map after the call
is empty — not equal to its pre-call value — so the whole call is not
state-preserving on a failed fill. -/
theorem execute_open_failure_counterexample :
    (execute_trade ⟨1, [(1, ⟨0, 10⟩)], none⟩ ⟨[⟨1, Dir.sell, 10, 1⟩], ⟨10, 10⟩⟩ Dir.buy 5
        (fun _ => true) none).s.active_trades = [] ∧
    (⟨1, [(1, ⟨0, 10⟩)], none⟩ : ExecState).active_trades ≠ [] := by
  with_unfolding_all decide

/-- C4 amended: when the gateway rejects the opening order, `last_signal` is
unchanged and no shadow entry is added or modified — every entry of the
post-call shadow map was already present before the call; entries can only
have been removed, by the successful preliminary close of opposite-direction
positions. -/
theorem execute_open_failure_state (s : ExecState) (gw : Gateway) (signal : Dir)
    (now : ℚ) (closeOk : Nat → Bool) :
    (execute_trade s gw signal now closeOk none).s.last_signal = s.last_signal ∧
    ∀ k v, lookupKey k (execute_trade s gw signal now closeOk none).s.active_trades = some v →
      lookupKey k s.active_trades = some v := by
  rcases hd : execute_decision s.last_signal gw.positions signal
  · unfold execute_trade
    simp only [hd]
    exact ⟨trivial, fun k v hv => hv⟩
  · unfold execute_trade
    simp only [hd]
    exact ⟨trivial, fun k v hv => hv⟩
  · unfold execute_trade
    simp only [hd]
    exact ⟨close_trade_last_signal s gw (some (oppositeDir signal)) none closeOk,
      fun k v hv => close_trade_lookup_sub s gw (some (oppositeDir signal)) none closeOk hv⟩

/-- Witness for C4's amended theorem: the preliminary close of the opposite
sell position fails, the opening order is rejected; `last_signal` is still
`none` and the shadow entry for ticket 2 is still present before the call. -/
theorem execute_open_failure_state_witness :
    (execute_trade ⟨1, [(2, ⟨0, 10⟩)], none⟩ ⟨[⟨2, Dir.sell, 10, 1⟩], ⟨10, 10⟩⟩ Dir.buy 5
        (fun _ => false) none).s.last_signal = none ∧
    lookupKey 2 [(2, (⟨0, 10⟩ : TradeInfo))] = some ⟨0, 10⟩ :=
  ⟨(execute_open_failure_state ⟨1, [(2, ⟨0, 10⟩)], none⟩
      ⟨[⟨2, Dir.sell, 10, 1⟩], ⟨10, 10⟩⟩ Dir.buy 5 (fun _ => false)).1,
   (execute_open_failure_state ⟨1, [(2, ⟨0, 10⟩)], none⟩
      ⟨[⟨2, Dir.sell, 10, 1⟩], ⟨10, 10⟩⟩ Dir.buy 5 (fun _ => false)).2 2 ⟨0, 10⟩
      (by with_unfolding_all decide)⟩

/-! ### Claim C10 -/

/-- C10 (first position only): `get_position_type` returns the direction of
the first position in the gateway's list, whatever follows it; consequently
the decision `execute_trade` takes at its top (duplicate no-op, same-direction
no-op, or proceed to close-and-open) is unchanged when the positions after the
first are replaced arbitrarily — directions of the other open positions are
never consulted. -/
theorem get_position_type_first_only (p : Position) (rest rest2 : List Position)
    (last_signal : Option Dir) (signal : Dir) :
    get_position_type (p :: rest) = some p.type ∧
    execute_decision last_signal (p :: rest) signal =
      execute_decision last_signal (p :: rest2) signal :=
  ⟨rfl, rfl⟩

/-! ### Helper lemmas: the signal column -/

lemma crossoverAt_eq_zero_or_one (closes : List ℚ) (i : Nat) :
    crossoverAt closes i = 0 ∨ crossoverAt closes i = 1 := by
  unfold crossoverAt
  cases h3 : smaAt 3 closes i <;> cases h7 : smaAt 7 closes i
  · exact Or.inl rfl
  · exact Or.inl rfl
  · exact Or.inl rfl
  · dsimp only
    split_ifs
    · exact Or.inr rfl
    · exact Or.inl rfl

lemma signalAt_sub_raw {closes : List ℚ} {i : Nat} {d : Dir}
    (h : signalAt closes i = some d) : rawSignalAt closes i = some d := by
  unfold signalAt at h
  cases hr : rawSignalAt closes i with
  | none =>
      rw [hr] at h
      exact absurd h (by simp)
  | some d0 =>
      rw [hr] at h
      cases hts : trendStrengthAt closes i with
      | none =>
          rw [hts] at h
          dsimp only at h
          cases h
          rfl
      | some ts =>
          rw [hts] at h
          dsimp only at h
          split_ifs at h
          cases h
          rfl

lemma rawSignalAt_buy {closes : List ℚ} {i : Nat}
    (h : rawSignalAt closes i = some Dir.buy) :
    i ≠ 0 ∧ crossoverAt closes i - crossoverAt closes (i - 1) = 1 := by
  unfold rawSignalAt at h
  split_ifs at h with h1 h2
  · unfold crossoverChangeAt at h1
    split_ifs at h1 with h0
    exact ⟨h0, Option.some.inj h1⟩
  · exact absurd h (by simp)

lemma rawSignalAt_sell {closes : List ℚ} {i : Nat}
    (h : rawSignalAt closes i = some Dir.sell) :
    i ≠ 0 ∧ crossoverAt closes i - crossoverAt closes (i - 1) = -1 := by
  unfold rawSignalAt at h
  split_ifs at h with h1 h2
  · exact absurd h (by simp)
  · unfold crossoverChangeAt at h2
    split_ifs at h2 with h0
    exact ⟨h0, Option.some.inj h2⟩

/-! ### Claim C7 -/

/-- C7 (short-series guard): a bar series with fewer than 7 bars produces no
signal at any index — the 7-period long moving average is everywhere NaN, so
the crossover indicator is identically 0 and never changes. -/
theorem short_series_no_signal (closes : List ℚ) (h : closes.length < 7) (i : Nat) :
    signalAt closes i = none := by
  have hsma : ∀ j, smaAt 7 closes j = none := by
    intro j
    unfold smaAt
    rw [if_neg]
    rintro ⟨h1, h2⟩
    omega
  have hc : ∀ j, crossoverAt closes j = 0 := by
    intro j
    unfold crossoverAt
    rw [hsma j]
    cases h3 : smaAt 3 closes j
    · rfl
    · rfl
  have hcc : ∀ j, rawSignalAt closes j = none := by
    intro j
    by_cases hj : j = 0
    · simp [rawSignalAt, crossoverChangeAt, hj]
    · simp [rawSignalAt, crossoverChangeAt, hj, hc]
  simp [signalAt, hcc]

/-- Witness for C7: a 3-bar series yields no signal at its last index. -/
theorem short_series_no_signal_witness : signalAt [1, 2, 3] 2 = none :=
  short_series_no_signal [1, 2, 3] (by decide) 2

/-! ### Claim C8 -/

/-- C8 (crossover firing rule): a buy signal appears only where the crossover
indicator changes 0→1 from the prior index, a sell signal only where it
changes 1→0, and the first index of the series never carries a signal. -/
theorem signal_only_on_crossover_change (closes : List ℚ) (i : Nat) :
    (signalAt closes i = some Dir.buy →
      i ≠ 0 ∧ crossoverAt closes i = 1 ∧ crossoverAt closes (i - 1) = 0) ∧
    (signalAt closes i = some Dir.sell →
      i ≠ 0 ∧ crossoverAt closes i = 0 ∧ crossoverAt closes (i - 1) = 1) ∧
    signalAt closes 0 = none := by
  refine ⟨?_, ?_, ?_⟩
  · intro h
    rcases rawSignalAt_buy (signalAt_sub_raw h) with ⟨h0, hdiff⟩
    refine ⟨h0, ?_, ?_⟩ <;>
      rcases crossoverAt_eq_zero_or_one closes i with hi | hi <;>
        rcases crossoverAt_eq_zero_or_one closes (i - 1) with hj | hj <;>
          omega
  · intro h
    rcases rawSignalAt_sell (signalAt_sub_raw h) with ⟨h0, hdiff⟩
    refine ⟨h0, ?_, ?_⟩ <;>
      rcases crossoverAt_eq_zero_or_one closes i with hi | hi <;>
        rcases crossoverAt_eq_zero_or_one closes (i - 1) with hj | hj <;>
          omega
  · simp [signalAt, rawSignalAt, crossoverChangeAt]

/-- Witness for C8 at the series [1,1,1,1,1,1,1,2], index 7: the buy signal
there indeed sits on a 0→1 crossover change away from index 0. -/
theorem signal_only_on_crossover_change_witness :
    (7 : Nat) ≠ 0 ∧ crossoverAt [1, 1, 1, 1, 1, 1, 1, 2] 7 = 1 ∧
      crossoverAt [1, 1, 1, 1, 1, 1, 1, 2] 6 = 0 :=
  (signal_only_on_crossover_change [1, 1, 1, 1, 1, 1, 1, 2] 7).1
    (by with_unfolding_all decide)

/-! ### Claim C6 -/

/-- C6 (end-to-end scenario): on close prices [1,1,1,1,1,1,1,2] the signal
column is `buy` at index 7 and `none` everywhere else; the trend strength at
index 7 is 50/3 percent, which exceeds the 0.001 minimum. -/
theorem scenario_buy_at_last_bar :
    signals [1, 1, 1, 1, 1, 1, 1, 2] =
      [none, none, none, none, none, none, none, some Dir.buy] ∧
    trendStrengthAt [1, 1, 1, 1, 1, 1, 1, 2] 7 = some (50 / 3) ∧
    (1 / 1000 : ℚ) < 50 / 3 := by
  with_unfolding_all decide

/-! ### Claim C5 -/

/-- C5 (error path of `apply_strategy`): when the signal computation raises —
modelled by the missing `close` column, which raises before any column is
written — the function catches the exception and returns the input frame
unchanged: same columns, no columns added, no values changed. -/
theorem apply_strategy_error_unchanged (f : Frame) (h : f.close = none) :
    apply_strategy f = ⟨f.close, f.extra, none, none, none⟩ := by
  unfold apply_strategy unchangedOutput
  rw [h]

/-- Witness for C5: a frame without a `close` column passes through unchanged. -/
theorem apply_strategy_error_unchanged_witness :
    apply_strategy ⟨none, [("open", [1, 2])]⟩ =
      ⟨none, [("open", [1, 2])], none, none, none⟩ :=
  apply_strategy_error_unchanged ⟨none, [("open", [1, 2])]⟩ rfl

end TradingBots
